import Mathlib

/-!
OpenCL matrix multiplication (`matrix.cpp`)

A shallow embedding of the `matrixMul` kernel and of the host program `main`
of `matrix.cpp`, with the properties of its specification stated and proved
(or refuted) over the embedding.

* Machine integers are `Nat`/`Int` with the 32-bit reductions written out.
* Global memory buffers are functions from the flat element index to the
  element; the three buffers `A`, `B`, `C` are distinct objects, as in `main`.
* The kernel is generic in the element type: only `0.0f`, `+` and `*` of the
  element type are used by the source.  `F32` is a model of the OpenCL C type
  `float` (IEEE 754 binary32, round to nearest even).
* The OpenCL runtime is an external service: the results of its calls are the
  fields of `Env`, and `main` produces the trace of its observable events.
  Two facts outside the source are part of the model of `main`: the runtime
  returns null from `clCreateContext` for a `device_id` that discovery left
  unset, and a read past the end of the host vector `C` ends the run.
-/

namespace OpenCLBasic

/-! ## 32-bit integer conversions -/

/-- The value of a `size_t` converted to `int` (32-bit two's complement). -/
def toInt32 (n : Nat) : Int :=
  if n % 4294967296 < 2147483648 then ((n % 4294967296 : Nat) : Int)
  else ((n % 4294967296 : Nat) : Int) - 4294967296

/-- The value of an `int` converted to `unsigned int`, the conversion C applies
to the `int` operand of a mixed `int`/`unsigned int` comparison or product. -/
def toUInt32 (z : Int) : Nat := (z % 4294967296).toNat

/-- The `int` increment `k++`, wrapping in two's complement past `INT_MAX`. -/
def incInt32 (k : Int) : Int := toInt32 (toUInt32 (k + 1))

/-- The index expression `row * N + k` of the kernel: `row` and `k` are `int`,
`N` is `unsigned int`, so the whole expression is evaluated in `unsigned int`. -/
def idxA (N : Nat) (row k : Int) : Nat :=
  ((toUInt32 row * N) % 4294967296 + toUInt32 k) % 4294967296

/-- The index expression `k * N + col` of the kernel. -/
def idxB (N : Nat) (k col : Int) : Nat :=
  ((toUInt32 k * N) % 4294967296 + toUInt32 col) % 4294967296

/-- The index expression `row * N + col` of the kernel. -/
def idxC (N : Nat) (row col : Int) : Nat :=
  ((toUInt32 row * N) % 4294967296 + toUInt32 col) % 4294967296

/-! ## The kernel `matrixMul` -/

/-- A load from one of the two input buffers, with the element index. -/
inductive Load where
  | A (i : Nat)
  | B (i : Nat)
  deriving DecidableEq, Repr

/-- The part of device memory a work-item can change or observe: the contents
of buffer `C` and the log of the loads from `A` and `B` executed so far. -/
structure KState (F : Type) where
  C : Nat → F
  loads : List Load

/-- The loop `for (int k = 0; k < N; k++) sum += A[row*N+k] * B[k*N+col];`
run for at most `fuel` iterations from the given `k` and `sum`; it returns the
final `sum` and the loads it executed, in order. -/
def matrixMulLoop {F : Type} [Add F] [Mul F] (A B : Nat → F) (N : Nat) (row col : Int) :
    Nat → Int → F → List Load → F × List Load
  | 0, _, sum, log => (sum, log)
  | fuel + 1, k, sum, log =>
    if toUInt32 k < N then
      matrixMulLoop A B N row col fuel (incInt32 k)
        (sum + A (idxA N row k) * B (idxB N k col))
        (log ++ [Load.A (idxA N row k), Load.B (idxB N k col)])
    else (sum, log)

/-- One execution of the kernel `matrixMul(A, B, C, N)` by the work-item whose
global ids are `gid0` and `gid1`.  The loop is given `N` iterations of fuel,
which is the number of iterations it makes (`matrixMulLoop_fuel`). -/
def matrixMul {F : Type} [Zero F] [Add F] [Mul F] (A B : Nat → F) (N : Nat)
    (gid0 gid1 : Nat) (st : KState F) : KState F :=
  let row := toInt32 gid0
  let col := toInt32 gid1
  let sum : F := 0
  if toUInt32 row < N ∧ toUInt32 col < N then
    let r := matrixMulLoop A B N row col N 0 sum []
    { C := Function.update st.C (idxC N row col) r.1, loads := st.loads ++ r.2 }
  else st

/-- The work-items of a two-dimensional launch with global size `{g0, g1}`. -/
def ndrange (g0 g1 : Nat) : List (Nat × Nat) :=
  (List.range g0).flatMap fun i => (List.range g1).map fun j => (i, j)

/-- The kernel executed once by each work-item of `ws`, in the order of `ws`. -/
def launch {F : Type} [Zero F] [Add F] [Mul F] (A B : Nat → F) (N : Nat)
    (ws : List (Nat × Nat)) (st : KState F) : KState F :=
  ws.foldl (fun s w => matrixMul A B N w.1 w.2 s) st

/-- The sum of the specification, `Σ_k A[i*N+k] * B[k*N+j]`, accumulated from
zero in increasing `k`. -/
def dotSpec {F : Type} [Zero F] [Add F] [Mul F] (A B : Nat → F) (N i j : Nat) : F :=
  (List.range N).foldl (fun s k => s + A (i * N + k) * B (k * N + j)) 0

/-! ## The element type `float` -/

/-- A binary32 datum: a NaN, an infinity, or the finite number
`(-1)^neg * m * 2^e`. -/
inductive F32 where
  | nan
  | inf (neg : Bool)
  | fin (neg : Bool) (m : Nat) (e : Int)
  deriving DecidableEq, Repr

namespace F32

/-- Number of binary digits of `m`, by halving (`fuel` bounds the halvings). -/
def bitLenAux : Nat → Nat → Nat
  | 0, _ => 0
  | fuel + 1, m => if m = 0 then 0 else bitLenAux fuel (m / 2) + 1

/-- Number of binary digits of `m`. -/
def bitLen (m : Nat) : Nat := bitLenAux m m

/-- The binary32 datum nearest to `(-1)^neg * m * 2^e`, ties to the even
significand; a magnitude past the largest finite number rounds to infinity. -/
def round (neg : Bool) (m : Nat) (e : Int) : F32 :=
  if m = 0 then fin neg 0 (-149)
  else
    let t : Int := max (e + (bitLen m : Int) - 24) (-149)
    if t ≤ e then
      if t ≤ 104 then fin neg (m * 2 ^ (e - t).toNat) t else inf neg
    else
      let d := (t - e).toNat
      let q := m / 2 ^ d
      let r := m % 2 ^ d
      let half := 2 ^ (d - 1)
      let q1 := if half < r ∨ (r = half ∧ q % 2 = 1) then q + 1 else q
      let q2 := if q1 = 16777216 then 8388608 else q1
      let t2 := if q1 = 16777216 then t + 1 else t
      if t2 ≤ 104 then fin neg q2 t2 else inf neg

/-- Float multiplication. -/
def mul : F32 → F32 → F32
  | nan, _ => nan
  | _, nan => nan
  | inf s, inf s' => inf (xor s s')
  | inf s, fin s' m _ => if m = 0 then nan else inf (xor s s')
  | fin s m _, inf s' => if m = 0 then nan else inf (xor s s')
  | fin s m e, fin s' m' e' => round (xor s s') (m * m') (e + e')

/-- Float addition. -/
def add : F32 → F32 → F32
  | nan, _ => nan
  | _, nan => nan
  | inf s, inf s' => if s = s' then inf s else nan
  | inf s, fin _ _ _ => inf s
  | fin _ _ _, inf s' => inf s'
  | fin s m e, fin s' m' e' =>
    let e0 := min e e'
    let a : Int := (if s then -1 else 1) * ((m * 2 ^ (e - e0).toNat : Nat) : Int)
    let b : Int := (if s' then -1 else 1) * ((m' * 2 ^ (e' - e0).toNat : Nat) : Int)
    let t := a + b
    if t = 0 then fin (s && s') 0 (-149)
    else round (decide (t < 0)) t.natAbs e0

instance : Zero F32 := ⟨fin false 0 (-149)⟩
instance : Add F32 := ⟨add⟩
instance : Mul F32 := ⟨mul⟩

/-- The float with the value of the natural number `n` (rounded). -/
def ofNat (n : Nat) : F32 := round false n 0

/-- The float `1.0f`. -/
def one : F32 := fin false 8388608 (-23)

/-- The finite binary32 numbers: significand below `2^24`, exponent between
`-149` and `104`, and exponent `-149` when the significand is below `2^23`
(zeros and subnormal numbers). -/
def IsFinite : F32 → Prop
  | fin _ m e => m < 16777216 ∧ -149 ≤ e ∧ e ≤ 104 ∧ (m < 8388608 → e = -149)
  | _ => False

instance : DecidablePred IsFinite := fun x => by
  cases x <;> unfold IsFinite <;> infer_instance

/-- A zero of either sign. -/
def IsZero : F32 → Prop
  | fin _ m _ => m = 0
  | _ => False

instance : DecidablePred IsZero := fun x => by
  cases x <;> unfold IsZero <;> infer_instance

end F32

/-- The matrix stored row-major in a list, as a buffer of floats (elements
past the end of the list read as zero). -/
def bufOfNats (l : List Nat) : Nat → F32 := fun i => F32.ofNat (l.getD i 0)

/-- The device handles `main` creates and releases. -/
inductive Handle where
  | context | queue | program | kernel | bufA | bufB | bufC
  deriving DecidableEq, Repr

/-- The observable events of a run of `main`: insertions into `std::cout` and
`std::cerr`, and the OpenCL calls with the arguments and results that matter. -/
inductive Event where
  /-- The insertion `std::cout << s` of a string. -/
  | out (s : String)
  /-- The insertion `std::cout << C[i * N + j]` of an element of the host vector `C`. -/
  | outFloat (x : F32)
  /-- The insertion `std::cout << exec_time.count()`. -/
  | outTime
  /-- The insertion `std::cout << std::endl`. -/
  | outEndl
  /-- The insertion `std::cerr << s` of a string. -/
  | err (s : String)
  /-- The insertion `std::cerr << std::endl`. -/
  | errEndl
  /-- The call of `clGetPlatformIDs`, with the status it returns. -/
  | getPlatformIDs (status : Int)
  /-- The call of `clGetDeviceIDs`, with the status it returns. -/
  | getDeviceIDs (status : Int)
  /-- The call of `clCreateContext`, `clCreateCommandQueue`,
  `clCreateProgramWithSource` or `clCreateKernel`; `ok` when the handle it
  returns is not null, that is when the handle was created. -/
  | create (h : Handle) (ok : Bool)
  /-- The call of `clBuildProgram`, with the status it returns. -/
  | buildProgram (status : Int)
  /-- The call of `clCreateBuffer` with its size argument; `ok` when the buffer
  was created. -/
  | createBuffer (h : Handle) (bytes : Nat) (ok : Bool)
  /-- The call of `clEnqueueWriteBuffer` with its size argument. -/
  | writeBuffer (h : Handle) (bytes : Nat)
  /-- The call of `clSetKernelArg` for the argument of the given index. -/
  | setKernelArg (i : Nat)
  /-- The call of `clEnqueueNDRangeKernel` with the two global sizes. -/
  | enqueueNDRangeKernel (g0 g1 : Nat)
  /-- The call of `clFinish`. -/
  | finish
  /-- The call of `clEnqueueReadBuffer` with its size argument. -/
  | readBuffer (h : Handle) (bytes : Nat)
  /-- The call of the release function of the handle. -/
  | release (h : Handle)
  /-- The read `C[idx]` of the print loop at an index past the end of the host
  vector `C`: undefined behaviour, which ends the run. -/
  | readPastEnd (idx : Nat)
  deriving DecidableEq, Repr

/-- What the OpenCL runtime answers to the calls of `main`. -/
structure Env where
  /-- Status returned by `clGetPlatformIDs`. -/
  platformStatus : Int
  /-- Status returned by `clGetDeviceIDs`. -/
  deviceStatus : Int
  /-- Whether `clCreateContext` returns a context (not null) when it is given
  a device that discovery has stored in `device_id`. -/
  context : Bool
  /-- Whether `clCreateCommandQueue` returns a queue. -/
  queue : Bool
  /-- Whether `clCreateProgramWithSource` returns a program. -/
  program : Bool
  /-- Status returned by `clBuildProgram`. -/
  buildStatus : Int
  /-- Whether `clCreateKernel` returns a kernel. -/
  kernel : Bool
  /-- Whether the `clCreateBuffer` call for `bufA` returns a buffer. -/
  bufA : Bool
  /-- Whether the `clCreateBuffer` call for `bufB` returns a buffer. -/
  bufB : Bool
  /-- Whether the `clCreateBuffer` call for `bufC` returns a buffer. -/
  bufC : Bool
  /-- Contents of the host vector `C` after the call of `clEnqueueReadBuffer`. -/
  hostC : Nat → F32

/-- The status `CL_SUCCESS`. -/
def CL_SUCCESS : Int := 0

/-- The value of `N * N * sizeof(float)`: the product `N * N` is evaluated in
`unsigned int`, the product with `sizeof(float)`, which is 4, in a 64-bit
`size_t`. -/
def bytes (N : Nat) : Nat := (((N * N) % 4294967296) * 4) % 18446744073709551616

/-- Whether `device_id` holds a device when `main` passes it on: discovery
stores one only when `clGetPlatformIDs` and `clGetDeviceIDs` both return
`CL_SUCCESS`; `main` does not test either status. -/
def deviceSet (env : Env) : Bool :=
  decide (env.platformStatus = CL_SUCCESS) && decide (env.deviceStatus = CL_SUCCESS)

/-- The result of `clCreateContext(0, 1, &device_id, ...)` as `main` tests it
(`true` for a context, `false` for null): the runtime rejects a `device_id`
that no discovery has set (`CL_INVALID_DEVICE`) and returns null. -/
def createContext (env : Env) : Bool := deviceSet env && env.context

/-- The steps of the two loops that print `C`, in order: `some idx` for
`std::cout << C[i * N + j] << " "`, with `idx` the index `i * N + j` evaluated
in `unsigned int`, and `none` for the `std::endl` that ends a row. -/
def printSteps (N : Nat) : List (Option Nat) :=
  (List.range N).flatMap fun i =>
    ((List.range N).map fun j => some (((i * N) % 4294967296 + j) % 4294967296)) ++ [none]

/-- The print steps run on a host vector of `len` elements: the events, and
whether all the steps ran.  A step that reads at an index from `len` on is
undefined behaviour; the run ends there. -/
def printRun (hostC : Nat → F32) (len : Nat) : List (Option Nat) → List Event × Bool
  | [] => ([], true)
  | none :: r => (Event.outEndl :: (printRun hostC len r).1, (printRun hostC len r).2)
  | some idx :: r =>
    if idx < len then
      (Event.outFloat (hostC idx) :: Event.out " " :: (printRun hostC len r).1,
        (printRun hostC len r).2)
    else ([Event.readPastEnd idx], false)

/-- The loops that print the host vector `C`, which `main` creates with
`N * N` elements, the product evaluated in `unsigned int`. -/
def printMatrix (hostC : Nat → F32) (N : Nat) : List Event × Bool :=
  printRun hostC ((N * N) % 4294967296) (printSteps N)

/-- How the `try` block of `main` ends. -/
inductive Outcome where
  /-- The block ran to its end. -/
  | completed
  /-- The block threw a `std::runtime_error` with this message. -/
  | thrown (what : String)
  /-- The block read past the end of the host vector `C`. -/
  | undefinedRead
  deriving DecidableEq, Repr

/-- The body of the `try` block of `main`: the events it produces and how it
ends. -/
def tryBlock (env : Env) (N : Nat) : List Event × Outcome :=
  let t1 := [Event.getPlatformIDs env.platformStatus, Event.getDeviceIDs env.deviceStatus,
    Event.create Handle.context (createContext env)]
  if createContext env = false then (t1, Outcome.thrown "Failed to create a compute context")
  else
    let t2 := t1 ++ [Event.create Handle.queue env.queue]
    if env.queue = false then (t2, Outcome.thrown "Failed to create a command queue")
    else
      let t3 := t2 ++ [Event.create Handle.program env.program,
        Event.buildProgram env.buildStatus]
      if env.buildStatus ≠ CL_SUCCESS then (t3, Outcome.thrown "Failed to build program")
      else
        let t4 := t3 ++ [Event.create Handle.kernel env.kernel]
        if env.kernel = false then (t4, Outcome.thrown "Failed to create kernel")
        else
          let t5 := t4 ++ [Event.createBuffer Handle.bufA (bytes N) env.bufA,
                  Event.createBuffer Handle.bufB (bytes N) env.bufB,
                  Event.createBuffer Handle.bufC (bytes N) env.bufC,
                  Event.writeBuffer Handle.bufA (bytes N),
                  Event.writeBuffer Handle.bufB (bytes N),
                  Event.setKernelArg 0, Event.setKernelArg 1, Event.setKernelArg 2,
                  Event.setKernelArg 3,
                  Event.enqueueNDRangeKernel N N,
                  Event.finish,
                  Event.readBuffer Handle.bufC (bytes N),
                  Event.out "Result Matrix C:", Event.outEndl]
              ++ (printMatrix env.hostC N).1
          if (printMatrix env.hostC N).2 = false then (t5, Outcome.undefinedRead)
          else
            (t5 ++ [Event.out "Execution time: ", Event.outTime, Event.out " ms", Event.outEndl,
                  Event.release Handle.bufA, Event.release Handle.bufB,
                  Event.release Handle.bufC, Event.release Handle.program,
                  Event.release Handle.kernel, Event.release Handle.queue,
                  Event.release Handle.context], Outcome.completed)

/-- The result of a run of `main`: the exit status and the events in order. -/
structure Run where
  exit : Nat
  trace : List Event

/-- The program `main` on the dimension `N` read from standard input, with the
runtime `env`.  The elements of `A` and `B` read from standard input reach the
device only; what comes back is `env.hostC`.  A run that ends in the read past
the end of `C` does not return from `main`: it is given the status 139 with
which a process killed by `SIGSEGV` is reported. -/
def main (env : Env) (N : Nat) : Run :=
  let pre := [Event.out "Enter the size of the matrices: ",
    Event.out "Enter elements for matrix A:", Event.outEndl,
    Event.out "Enter elements for matrix B:", Event.outEndl]
  match tryBlock env N with
  | (t, Outcome.thrown what) =>
    ⟨1, pre ++ t ++ [Event.err "Error: ", Event.err what, Event.errEndl]⟩
  | (t, Outcome.completed) => ⟨0, pre ++ t⟩
  | (t, Outcome.undefinedRead) => ⟨139, pre ++ t⟩

/-- The text an event appends to the error stream. -/
def errText : Event → Option String
  | Event.err s => some s
  | Event.errEndl => some "\n"
  | _ => none

/-- The text written to the error stream. -/
def stderrText (t : List Event) : String := String.join (t.filterMap errText)

/-- The events that write the result matrix to standard output. -/
def isResultOutput : Event → Bool
  | Event.out s => s = "Result Matrix C:"
  | Event.outFloat _ => true
  | _ => false

/-- The events of the steps that follow the build of the program: creation of
the kernel, allocation of the buffers, uploads, arguments, launch, download
and printing of the result. -/
def isAfterBuild : Event → Bool
  | Event.create Handle.kernel _ => true
  | Event.createBuffer _ _ _ => true
  | Event.writeBuffer _ _ => true
  | Event.setKernelArg _ => true
  | Event.enqueueNDRangeKernel _ _ => true
  | Event.finish => true
  | Event.readBuffer _ _ => true
  | e => isResultOutput e

/-- The size argument of a buffer allocation or transfer. -/
def sizeArg : Event → Option Nat
  | Event.createBuffer _ b _ => some b
  | Event.writeBuffer _ b => some b
  | Event.readBuffer _ b => some b
  | _ => none

/-- The size arguments of the buffer allocations and transfers in a trace. -/
def bufferSizes (t : List Event) : List Nat := t.filterMap sizeArg

/-- The events in which the handle `h` is created (the call returned it). -/
def isCreated (h : Handle) : Event → Bool
  | Event.create h2 ok => decide (h2 = h) && ok
  | Event.createBuffer h2 _ ok => decide (h2 = h) && ok
  | _ => false

/-- A runtime on which every call succeeds and the device returns zeros. -/
def envOk : Env :=
  { platformStatus := 0, deviceStatus := 0, context := true, queue := true, program := true,
    buildStatus := 0, kernel := true, bufA := true, bufB := true, bufC := true,
    hostC := fun _ => 0 }

/-- The runtime of `envOk`, except that `clBuildProgram` returns
`CL_BUILD_PROGRAM_FAILURE`. -/
def envBuildFails : Env := { envOk with buildStatus := -11 }

/-- The runtime of `envOk`, except that `clCreateBuffer` returns null for `bufA`. -/
def envNoBufA : Env := { envOk with bufA := false }

/-! ## Conversions and index arithmetic -/

theorem toUInt32_toInt32 (n : Nat) : toUInt32 (toInt32 n) = n % 4294967296 := by
  unfold toUInt32 toInt32
  split <;> omega

theorem incInt32_toInt32 (n : Nat) : incInt32 (toInt32 n) = toInt32 (n + 1) := by
  unfold incInt32 toUInt32 toInt32
  split <;> split <;> split <;> omega

theorem toInt32_zero : toInt32 0 = 0 := by decide

theorem toInt32_bounds (n : Nat) : -2147483648 ≤ toInt32 n ∧ toInt32 n < 2147483648 := by
  unfold toInt32
  split <;> omega

theorem cell_lt {N i j : Nat} (hi : i < N) (hj : j < N) : i * N + j < N * N := by
  have h : (i + 1) * N ≤ N * N := Nat.mul_le_mul_right N hi
  have h2 : (i + 1) * N = i * N + N := by ring
  omega

theorem idxA_eq {N i k : Nat} (hN : N * N ≤ 4294967296) (hi : i < N) (hk : k < N) :
    idxA N (toInt32 i) (toInt32 k) = i * N + k := by
  have h := cell_lt hi hk
  have hNN : N ≤ N * N := Nat.le_mul_of_pos_left N (by omega)
  unfold idxA
  rw [toUInt32_toInt32, toUInt32_toInt32, Nat.mod_eq_of_lt (a := i) (by omega),
    Nat.mod_eq_of_lt (a := k) (by omega)]
  omega

theorem idxB_eq {N k j : Nat} (hN : N * N ≤ 4294967296) (hk : k < N) (hj : j < N) :
    idxB N (toInt32 k) (toInt32 j) = k * N + j := idxA_eq hN hk hj

theorem idxC_eq {N i j : Nat} (hN : N * N ≤ 4294967296) (hi : i < N) (hj : j < N) :
    idxC N (toInt32 i) (toInt32 j) = i * N + j := idxA_eq hN hi hj

theorem idxC_lt (N : Nat) (row col : Int) : idxC N row col < 4294967296 := by
  unfold idxC
  omega

/-! ## The loop and one work-item -/

theorem matrixMulLoop_fst {F : Type} [Add F] [Mul F] (A B : Nat → F) {N i j : Nat}
    (hN : N * N ≤ 4294967296) (hi : i < N) (hj : j < N) :
    ∀ (fuel k : Nat) (s : F) (log : List Load), k + fuel = N →
      (matrixMulLoop A B N (toInt32 i) (toInt32 j) fuel (toInt32 k) s log).1
        = (List.range' k fuel).foldl (fun s x => s + A (i * N + x) * B (x * N + j)) s := by
  intro fuel
  induction fuel with
  | zero => intro k s log _; rfl
  | succ fuel ih =>
    intro k s log hk
    have hkN : k < N := by omega
    have hNN : N ≤ N * N := Nat.le_mul_of_pos_left N (by omega)
    have hc : toUInt32 (toInt32 k) < N := by
      rw [toUInt32_toInt32]; omega
    rw [matrixMulLoop, if_pos hc, incInt32_toInt32, ih (k + 1) _ _ (by omega),
      idxA_eq hN hi hkN, idxB_eq hN hkN hj]
    rfl

theorem matrixMulLoop_dotSpec {F : Type} [Zero F] [Add F] [Mul F] (A B : Nat → F) {N i j : Nat}
    (hN : N * N ≤ 4294967296) (hi : i < N) (hj : j < N) (log : List Load) :
    (matrixMulLoop A B N (toInt32 i) (toInt32 j) N 0 0 log).1 = dotSpec A B N i j := by
  have h := matrixMulLoop_fst A B hN hi hj N 0 0 log (by omega)
  rw [toInt32_zero] at h
  rw [h, dotSpec, List.range_eq_range']

theorem matrixMulLoop_snd {F : Type} [Add F] [Mul F] (A B : Nat → F) {N i j : Nat}
    (hN : N * N ≤ 4294967296) (hi : i < N) (hj : j < N) :
    ∀ (fuel k : Nat) (s : F) (log : List Load), k + fuel = N →
      (matrixMulLoop A B N (toInt32 i) (toInt32 j) fuel (toInt32 k) s log).2
        = log ++ (List.range' k fuel).flatMap
            (fun x => [Load.A (i * N + x), Load.B (x * N + j)]) := by
  intro fuel
  induction fuel with
  | zero => intro k s log _; simp [matrixMulLoop]
  | succ fuel ih =>
    intro k s log hk
    have hkN : k < N := by omega
    have hNN : N ≤ N * N := Nat.le_mul_of_pos_left N (by omega)
    have hc : toUInt32 (toInt32 k) < N := by
      rw [toUInt32_toInt32]; omega
    rw [matrixMulLoop, if_pos hc, incInt32_toInt32, ih (k + 1) _ _ (by omega),
      idxA_eq hN hi hkN, idxB_eq hN hkN hj]
    simp [List.range'_succ]

theorem matrixMul_loads_inrange {F : Type} [Zero F] [Add F] [Mul F] (A B : Nat → F)
    {N i j : Nat} (hN : N * N ≤ 4294967296) (hi : i < N) (hj : j < N) (st : KState F) :
    (matrixMul A B N i j st).loads
      = st.loads ++ (List.range N).flatMap (fun k => [Load.A (i * N + k), Load.B (k * N + j)]) := by
  have hNN : N ≤ N * N := Nat.le_mul_of_pos_left N (by omega)
  have hc : toUInt32 (toInt32 i) < N ∧ toUInt32 (toInt32 j) < N := by
    rw [toUInt32_toInt32, toUInt32_toInt32]; omega
  have h := matrixMulLoop_snd A B hN hi hj N 0 (0 : F) [] (by omega)
  rw [toInt32_zero] at h
  simp only [matrixMul, if_pos hc]
  rw [h, List.nil_append, List.range_eq_range']

/-- The loop makes exactly `N` iterations: more fuel than `N` changes nothing. -/
theorem matrixMulLoop_fuel {F : Type} [Add F] [Mul F] (A B : Nat → F) {N : Nat}
    (hN : N < 4294967296) (row col : Int) :
    ∀ (fuel k : Nat) (s : F) (log : List Load), k ≤ N → N - k ≤ fuel →
      matrixMulLoop A B N row col fuel (toInt32 k) s log
        = matrixMulLoop A B N row col (N - k) (toInt32 k) s log := by
  intro fuel
  induction fuel with
  | zero =>
    intro k s log _ h
    have : N - k = 0 := by omega
    rw [this]
  | succ fuel ih =>
    intro k s log hk h
    rcases Nat.eq_or_lt_of_le hk with rfl | hlt
    · have hc : ¬ toUInt32 (toInt32 k) < k := by
        rw [toUInt32_toInt32]; omega
      rw [Nat.sub_self]
      simp only [matrixMulLoop, if_neg hc]
    · have hc : toUInt32 (toInt32 k) < N := by
        rw [toUInt32_toInt32]; omega
      have e : N - k = (N - (k + 1)) + 1 := by omega
      rw [e, matrixMulLoop, if_pos hc, matrixMulLoop, if_pos hc, incInt32_toInt32,
        ih (k + 1) _ _ (by omega) (by omega)]

theorem matrixMul_C_inrange {F : Type} [Zero F] [Add F] [Mul F] (A B : Nat → F) {N i j : Nat}
    (hN : N * N ≤ 4294967296) (hi : i < N) (hj : j < N) (st : KState F) :
    (matrixMul A B N i j st).C = Function.update st.C (i * N + j) (dotSpec A B N i j) := by
  have hNN : N ≤ N * N := Nat.le_mul_of_pos_left N (by omega)
  have hc : toUInt32 (toInt32 i) < N ∧ toUInt32 (toInt32 j) < N := by
    rw [toUInt32_toInt32, toUInt32_toInt32]; omega
  simp only [matrixMul, if_pos hc]
  rw [idxC_eq hN hi hj, matrixMulLoop_dotSpec A B hN hi hj]

theorem matrixMul_C_high {F : Type} [Zero F] [Add F] [Mul F] (A B : Nat → F) (N gid0 gid1 : Nat)
    (st : KState F) {idx : Nat} (h : 4294967296 ≤ idx) :
    (matrixMul A B N gid0 gid1 st).C idx = st.C idx := by
  simp only [matrixMul]
  split
  · have := idxC_lt N (toInt32 gid0) (toInt32 gid1)
    exact Function.update_noteq (by omega) _ _
  · rfl

/-! ## The launch -/

theorem launch_append {F : Type} [Zero F] [Add F] [Mul F] (A B : Nat → F) (N : Nat)
    (ws : List (Nat × Nat)) (w : Nat × Nat) (st : KState F) :
    launch A B N (ws ++ [w]) st = matrixMul A B N w.1 w.2 (launch A B N ws st) := by
  simp [launch, List.foldl_append]

theorem launch_C_high {F : Type} [Zero F] [Add F] [Mul F] (A B : Nat → F) (N : Nat)
    (ws : List (Nat × Nat)) (st : KState F) {idx : Nat} (h : 4294967296 ≤ idx) :
    (launch A B N ws st).C idx = st.C idx := by
  induction ws using List.reverseRecOn with
  | nil => rfl
  | append_singleton ws w ih => rw [launch_append, matrixMul_C_high A B N _ _ _ h, ih]

theorem cell_inj {N i j i2 j2 : Nat} (hj : j < N) (hj2 : j2 < N)
    (h : i * N + j = i2 * N + j2) : i = i2 ∧ j = j2 := by
  have hpos : 0 < N := by omega
  have h1 : (i * N + j) / N = i := by
    rw [Nat.add_comm, Nat.add_mul_div_right _ _ hpos, Nat.div_eq_of_lt hj, Nat.zero_add]
  have h2 : (i2 * N + j2) / N = i2 := by
    rw [Nat.add_comm, Nat.add_mul_div_right _ _ hpos, Nat.div_eq_of_lt hj2, Nat.zero_add]
  have e : i = i2 := by rw [← h1, ← h2, h]
  subst e
  exact ⟨rfl, by omega⟩

theorem launch_C_cell {F : Type} [Zero F] [Add F] [Mul F] (A B : Nat → F) {N i j : Nat}
    (hN : N * N ≤ 4294967296) (hi : i < N) (hj : j < N) :
    ∀ (ws : List (Nat × Nat)) (st : KState F), (∀ w ∈ ws, w.1 < N ∧ w.2 < N) → (i, j) ∈ ws →
      (launch A B N ws st).C (i * N + j) = dotSpec A B N i j := by
  intro ws
  induction ws using List.reverseRecOn with
  | nil => intro st _ h; simp at h
  | append_singleton ws w ih =>
    intro st hall hmem
    have hw : w.1 < N ∧ w.2 < N := hall w (by simp)
    rw [launch_append, matrixMul_C_inrange A B hN hw.1 hw.2]
    by_cases e : i * N + j = w.1 * N + w.2
    · obtain ⟨e1, e2⟩ := cell_inj hj hw.2 e
      subst e1 e2
      simp
    · rw [Function.update_noteq e]
      have hm : (i, j) ∈ ws := by
        rcases List.mem_append.1 hmem with h | h
        · exact h
        · exfalso
          apply e
          have : (i, j) = w := by simpa using h
          rw [← this]
      exact ih st (fun w hw => hall w (List.mem_append.2 (Or.inl hw))) hm

theorem mem_ndrange {g0 g1 i j : Nat} : (i, j) ∈ ndrange g0 g1 ↔ i < g0 ∧ j < g1 := by
  simp [ndrange, List.mem_flatMap]

/-! ## Facts about `float` arithmetic -/

namespace F32

theorem zero_def : (0 : F32) = fin false 0 (-149) := rfl
theorem mul_def (x y : F32) : x * y = mul x y := rfl
theorem add_def (x y : F32) : x + y = add x y := rfl

theorem isFinite_zero : IsFinite (0 : F32) := by decide

theorem isZero_zero : IsZero (0 : F32) := rfl

theorem zero_add_zero (s : Bool) (e : Int) : (0 : F32) + fin s 0 e = 0 := by
  simp [add_def, zero_def, add]

theorem zero_mul_finite {x y : F32} (hx : IsZero x) (hy : IsFinite y) :
    ∃ s, x * y = fin s 0 (-149) := by
  cases x with
  | nan => exact hx.elim
  | inf s => exact hx.elim
  | fin s m e =>
    cases y with
    | nan => exact hy.elim
    | inf s => exact hy.elim
    | fin s2 m2 e2 =>
      have hm : m = 0 := hx
      subst hm
      exact ⟨xor s s2, by simp [mul_def, mul, round]⟩

theorem finite_mul_zero {x y : F32} (hx : IsFinite x) (hy : IsZero y) :
    ∃ s, x * y = fin s 0 (-149) := by
  cases x with
  | nan => exact hx.elim
  | inf s => exact hx.elim
  | fin s m e =>
    cases y with
    | nan => exact hy.elim
    | inf s => exact hy.elim
    | fin s2 m2 e2 =>
      have hm : m2 = 0 := hy
      subst hm
      exact ⟨xor s s2, by simp [mul_def, mul, round]⟩

end F32

/-! ## The dot product on special matrices -/

theorem foldl_zero_terms (f : Nat → F32) (n : Nat)
    (h : ∀ k, k < n → ∃ s, f k = F32.fin s 0 (-149)) :
    (List.range n).foldl (fun s k => s + f k) 0 = 0 := by
  induction n with
  | zero => rfl
  | succ n ih =>
    obtain ⟨s, hs⟩ := h n (Nat.lt_succ_self n)
    rw [List.range_succ, List.foldl_append, ih (fun k hk => h k (Nat.lt_succ_of_lt hk))]
    simp only [List.foldl_cons, List.foldl_nil, hs]
    exact F32.zero_add_zero s _

theorem dotSpec_zero_left {A B : Nat → F32} {N i j : Nat} (hi : i < N) (hj : j < N)
    (hA : ∀ x, x < N * N → F32.IsZero (A x)) (hB : ∀ x, x < N * N → F32.IsFinite (B x)) :
    dotSpec A B N i j = 0 :=
  foldl_zero_terms (fun k => A (i * N + k) * B (k * N + j)) N fun _ hk =>
    F32.zero_mul_finite (hA _ (cell_lt hi hk)) (hB _ (cell_lt hk hj))

theorem dotSpec_zero_right {A B : Nat → F32} {N i j : Nat} (hi : i < N) (hj : j < N)
    (hA : ∀ x, x < N * N → F32.IsFinite (A x)) (hB : ∀ x, x < N * N → F32.IsZero (B x)) :
    dotSpec A B N i j = 0 :=
  foldl_zero_terms (fun k => A (i * N + k) * B (k * N + j)) N fun _ hk =>
    F32.finite_mul_zero (hA _ (cell_lt hi hk)) (hB _ (cell_lt hk hj))

/-- C1 (amended): for every `N` with `N * N ≤ 2^32`, all buffers `A`, `B` and
every initial state (any contents of `C`), running the kernel once for each
work-item of the launch geometry `{N, N}`, in any order `ws`, leaves
`C[i*N+j]` equal to the sum over `k = 0..N-1` of `A[i*N+k] * B[k*N+j]`
accumulated from zero in increasing `k`, for every `i < N` and `j < N`.  It
holds for every element type, whatever its `0`, `+` and `*` are. -/
theorem matrixMul_launch_correct {F : Type} [Zero F] [Add F] [Mul F] (A B : Nat → F) (N : Nat)
    (ws : List (Nat × Nat)) (st : KState F) (hN : N * N ≤ 4294967296)
    (hws : ws.Perm (ndrange N N)) (i j : Nat) (hi : i < N) (hj : j < N) :
    (launch A B N ws st).C (i * N + j) = dotSpec A B N i j :=
  launch_C_cell A B hN hi hj ws st
    (fun _ hw => mem_ndrange.1 (hws.mem_iff.1 hw))
    (hws.mem_iff.2 (mem_ndrange.2 ⟨hi, hj⟩))

set_option maxRecDepth 100000 in
/-- The example of the specification: `N = 2`, `A = [1, 2, 3, 4]` and
`B = [5, 6, 7, 8]` give `C = [19, 22, 43, 50]`, here with the work-items run
in reverse order and `C` full of NaN before the launch. -/
theorem matrixMul_launch_correct_witness :
    (2 * 2 ≤ 4294967296 ∧ ((ndrange 2 2).reverse).Perm (ndrange 2 2)) ∧
    (launch (bufOfNats [1, 2, 3, 4]) (bufOfNats [5, 6, 7, 8]) 2 (ndrange 2 2).reverse
        ⟨fun _ => F32.nan, []⟩).C (0 * 2 + 0) = F32.ofNat 19 ∧
    (launch (bufOfNats [1, 2, 3, 4]) (bufOfNats [5, 6, 7, 8]) 2 (ndrange 2 2).reverse
        ⟨fun _ => F32.nan, []⟩).C (0 * 2 + 1) = F32.ofNat 22 ∧
    (launch (bufOfNats [1, 2, 3, 4]) (bufOfNats [5, 6, 7, 8]) 2 (ndrange 2 2).reverse
        ⟨fun _ => F32.nan, []⟩).C (1 * 2 + 0) = F32.ofNat 43 ∧
    (launch (bufOfNats [1, 2, 3, 4]) (bufOfNats [5, 6, 7, 8]) 2 (ndrange 2 2).reverse
        ⟨fun _ => F32.nan, []⟩).C (1 * 2 + 1) = F32.ofNat 50 :=
  ⟨⟨by decide, List.reverse_perm _⟩,
   (matrixMul_launch_correct _ _ 2 _ _ (by decide) (List.reverse_perm _) 0 0
      (by decide) (by decide)).trans (by decide),
   (matrixMul_launch_correct _ _ 2 _ _ (by decide) (List.reverse_perm _) 0 1
      (by decide) (by decide)).trans (by decide),
   (matrixMul_launch_correct _ _ 2 _ _ (by decide) (List.reverse_perm _) 1 0
      (by decide) (by decide)).trans (by decide),
   (matrixMul_launch_correct _ _ 2 _ _ (by decide) (List.reverse_perm _) 1 1
      (by decide) (by decide)).trans (by decide)⟩

/-- C1 as stated fails at `N = 65537`: with `A` and `B` all zero and `C` all
one before the launch, the element `C[65536 * 65537 + 0]` of row 65536 and
column 0 is still one after the launch over the `{N, N}` geometry, while the
sum of the claim is zero.  The index `row * N + col` is reduced modulo `2^32`
by the kernel: the work-item of that cell writes `C[65536]`, and no work-item
writes an index from `2^32` on. -/
theorem matrixMul_launch_correct_counterexample :
    (65536 < 65537 ∧ 0 < 65537) ∧
    idxC 65537 (toInt32 65536) (toInt32 0) = 65536 ∧
    (launch (fun _ => (0 : F32)) (fun _ => (0 : F32)) 65537 (ndrange 65537 65537)
        ⟨fun _ => F32.one, []⟩).C (65536 * 65537 + 0)
      ≠ dotSpec (fun _ => (0 : F32)) (fun _ => (0 : F32)) 65537 65536 0 := by
  refine ⟨by decide, by decide, ?_⟩
  rw [launch_C_high _ _ _ _ _ (by decide),
    dotSpec_zero_left (by decide) (by decide) (fun _ _ => F32.isZero_zero)
      (fun _ _ => F32.isFinite_zero)]
  decide

/-- C2 (amended): for every `N`, a work-item whose global ids, reduced modulo
`2^32` as the kernel holds them in its 32-bit `row` and `col`, have `row ≥ N`
or `col ≥ N` executes no load from `A` or `B` and leaves every element of `C`
unchanged.  This covers every work-item with global ids below `2^32` and
`row ≥ N` or `col ≥ N`. -/
theorem matrixMul_out_of_range {F : Type} [Zero F] [Add F] [Mul F] (A B : Nat → F)
    (N gid0 gid1 : Nat) (st : KState F)
    (h : N ≤ gid0 % 4294967296 ∨ N ≤ gid1 % 4294967296) :
    (matrixMul A B N gid0 gid1 st).loads = st.loads ∧
      (matrixMul A B N gid0 gid1 st).C = st.C := by
  have hc : ¬ (toUInt32 (toInt32 gid0) < N ∧ toUInt32 (toInt32 gid1) < N) := by
    rw [toUInt32_toInt32, toUInt32_toInt32]
    omega
  simp only [matrixMul, if_neg hc, and_self]

/-- The work-item `(3000000000, 1)` of a launch with `N = 2` does nothing. -/
theorem matrixMul_out_of_range_witness :
    (2 ≤ 3000000000 % 4294967296 ∨ 2 ≤ 1 % 4294967296) ∧
    ((matrixMul (bufOfNats [1, 2, 3, 4]) (bufOfNats [5, 6, 7, 8]) 2 3000000000 1
        ⟨fun _ => F32.nan, []⟩).loads = [] ∧
      (matrixMul (bufOfNats [1, 2, 3, 4]) (bufOfNats [5, 6, 7, 8]) 2 3000000000 1
        ⟨fun _ => F32.nan, []⟩).C = fun _ => F32.nan) :=
  ⟨by decide,
   matrixMul_out_of_range _ _ 2 3000000000 1 ⟨fun _ => F32.nan, []⟩ (by decide)⟩

set_option maxRecDepth 100000 in
/-- C2 as stated fails for the work-item with global ids `(2^32, 0)` and
`N = 1`: its first coordinate is not below `N`, but the kernel holds it in the
`int` variable `row` as 0, so the work-item loads `A[0]` and `B[0]` and stores
their product in `C[0]`. -/
theorem matrixMul_out_of_range_counterexample :
    (1 ≤ 4294967296 ∨ 1 ≤ 0) ∧
    (matrixMul (fun _ => F32.one) (fun _ => F32.one) 1 4294967296 0
        ⟨fun _ => F32.nan, []⟩).loads = [Load.A 0, Load.B 0] ∧
    (matrixMul (fun _ => F32.one) (fun _ => F32.one) 1 4294967296 0
        ⟨fun _ => F32.nan, []⟩).C 0 = F32.one ∧
    (fun _ => F32.nan) 0 ≠ F32.one := by
  decide

/-- C10: for every `N` with `N * N < 2^32` and every in-range work-item
`(row, col)`, the index expressions `row*N+k`, `k*N+col` (for every `k < N`)
and `row*N+col`, evaluated in `unsigned int`, have their exact values (no
wrap) and are below `N * N`; the loads one execution of the kernel makes are
exactly `A[row*N+k]` and `B[k*N+col]` for `k = 0..N-1`, all at indices below
`N * N`; its only store is to `C[row*N+col]`, below `N * N`; and the execution
of any other in-range work-item leaves that element of `C` untouched. -/
theorem matrixMul_index_safety {F : Type} [Zero F] [Add F] [Mul F] (A B : Nat → F)
    (N gid0 gid1 : Nat) (st : KState F) (hN : N * N < 4294967296)
    (hr : gid0 < N) (hc : gid1 < N) :
    (∀ k, k < N →
      (idxA N (toInt32 gid0) (toInt32 k) = gid0 * N + k ∧ gid0 * N + k < N * N) ∧
      (idxB N (toInt32 k) (toInt32 gid1) = k * N + gid1 ∧ k * N + gid1 < N * N)) ∧
    (idxC N (toInt32 gid0) (toInt32 gid1) = gid0 * N + gid1 ∧ gid0 * N + gid1 < N * N) ∧
    (matrixMul A B N gid0 gid1 st).loads = st.loads ++
      (List.range N).flatMap (fun k => [Load.A (gid0 * N + k), Load.B (k * N + gid1)]) ∧
    (∀ l, l ∈ (matrixMul A B N gid0 gid1 st).loads → l ∈ st.loads ∨
      ∃ x, x < N * N ∧ (l = Load.A x ∨ l = Load.B x)) ∧
    (∀ x, x ≠ gid0 * N + gid1 → (matrixMul A B N gid0 gid1 st).C x = st.C x) ∧
    (∀ g0 g1 : Nat, g0 < N → g1 < N → (g0, g1) ≠ (gid0, gid1) →
      idxC N (toInt32 g0) (toInt32 g1) ≠ idxC N (toInt32 gid0) (toInt32 gid1) ∧
      ∀ st2 : KState F,
        (matrixMul A B N g0 g1 st2).C (gid0 * N + gid1) = st2.C (gid0 * N + gid1)) := by
  have hN2 : N * N ≤ 4294967296 := Nat.le_of_lt hN
  have hl := matrixMul_loads_inrange A B hN2 hr hc st
  have hne : ∀ g0 g1 : Nat, g0 < N → g1 < N → (g0, g1) ≠ (gid0, gid1) →
      gid0 * N + gid1 ≠ g0 * N + g1 := by
    intro g0 g1 _ h1 hne heq
    obtain ⟨e1, e2⟩ := cell_inj hc h1 heq
    exact hne (by rw [e1, e2])
  refine ⟨fun k hk => ⟨⟨idxA_eq hN2 hr hk, cell_lt hr hk⟩, ⟨idxB_eq hN2 hk hc, cell_lt hk hc⟩⟩,
    ⟨idxC_eq hN2 hr hc, cell_lt hr hc⟩, hl, ?_, ?_, ?_⟩
  · intro l hmem
    rw [hl, List.mem_append] at hmem
    rcases hmem with hmem | hmem
    · exact Or.inl hmem
    · right
      simp only [List.mem_flatMap, List.mem_range, List.mem_cons, List.mem_singleton,
        List.not_mem_nil, or_false] at hmem
      obtain ⟨k, hk, h | h⟩ := hmem
      · exact ⟨_, cell_lt hr hk, Or.inl h⟩
      · exact ⟨_, cell_lt hk hc, Or.inr h⟩
  · intro x hx
    rw [matrixMul_C_inrange A B hN2 hr hc, Function.update_noteq hx]
  · intro g0 g1 h0 h1 hne2
    refine ⟨?_, fun st2 => ?_⟩
    · rw [idxC_eq hN2 h0 h1, idxC_eq hN2 hr hc]
      exact fun e => hne g0 g1 h0 h1 hne2 e.symm
    · rw [matrixMul_C_inrange A B hN2 h0 h1, Function.update_noteq (hne g0 g1 h0 h1 hne2)]

/-- The work-item `(2, 1)` of a launch with `N = 3` on the zero matrices: its
six loads, and its store. -/
theorem matrixMul_index_safety_witness :
    (3 * 3 < 4294967296 ∧ 2 < 3 ∧ 1 < 3) ∧
    (matrixMul (fun _ => (0 : F32)) (fun _ => (0 : F32)) 3 2 1 ⟨fun _ => F32.nan, []⟩).loads
      = [Load.A 6, Load.B 1, Load.A 7, Load.B 4, Load.A 8, Load.B 7] ∧
    (∀ x, x ≠ 2 * 3 + 1 →
      (matrixMul (fun _ => (0 : F32)) (fun _ => (0 : F32)) 3 2 1 ⟨fun _ => F32.nan, []⟩).C x
        = F32.nan) ∧
    idxC 3 (toInt32 2) (toInt32 1) = 2 * 3 + 1 :=
  ⟨by decide,
   (matrixMul_index_safety (fun _ => (0 : F32)) (fun _ => (0 : F32)) 3 2 1
      ⟨fun _ => F32.nan, []⟩ (by decide) (by decide) (by decide)).2.2.1.trans (by decide),
   (matrixMul_index_safety (fun _ => (0 : F32)) (fun _ => (0 : F32)) 3 2 1
      ⟨fun _ => F32.nan, []⟩ (by decide) (by decide) (by decide)).2.2.2.2.1,
   (matrixMul_index_safety (fun _ => (0 : F32)) (fun _ => (0 : F32)) 3 2 1
      ⟨fun _ => F32.nan, []⟩ (by decide) (by decide) (by decide)).2.1.1⟩

/-! ## The kernel on the identity and zero matrices -/

/-- C9 (amended): for every `N` with `N * N ≤ 2^32` and all `N x N` matrices
`A` and `B`, if every element of one of them is zero and every element of the
other is a finite float, then running the kernel over the `{N, N}` geometry in
any order leaves `C[i*N+j]` equal to `+0.0f` for every `i < N` and `j < N`,
whatever `C` held before. -/
theorem matrixMul_zero (A B : Nat → F32) (N : Nat) (ws : List (Nat × Nat))
    (st : KState F32) (hN : N * N ≤ 4294967296) (hws : ws.Perm (ndrange N N))
    (h : ((∀ x, x < N * N → F32.IsZero (A x)) ∧ (∀ x, x < N * N → F32.IsFinite (B x))) ∨
      ((∀ x, x < N * N → F32.IsFinite (A x)) ∧ (∀ x, x < N * N → F32.IsZero (B x))))
    (i j : Nat) (hi : i < N) (hj : j < N) :
    (launch A B N ws st).C (i * N + j) = 0 := by
  have hC : (launch A B N ws st).C (i * N + j) = dotSpec A B N i j :=
    launch_C_cell A B hN hi hj ws st
      (fun _ hw => mem_ndrange.1 (hws.mem_iff.1 hw))
      (hws.mem_iff.2 (mem_ndrange.2 ⟨hi, hj⟩))
  rw [hC]
  rcases h with ⟨hA, hB⟩ | ⟨hA, hB⟩
  · exact dotSpec_zero_left hi hj hA hB
  · exact dotSpec_zero_right hi hj hA hB

/-- The zero matrix times `[5, 6, 7, 8]`, at row 1 and column 1. -/
theorem matrixMul_zero_witness :
    (2 * 2 ≤ 4294967296 ∧ (ndrange 2 2).Perm (ndrange 2 2) ∧
      (((∀ x, x < 2 * 2 → F32.IsZero (bufOfNats [0, 0, 0, 0] x)) ∧
        (∀ x, x < 2 * 2 → F32.IsFinite (bufOfNats [5, 6, 7, 8] x))) ∨
      ((∀ x, x < 2 * 2 → F32.IsFinite (bufOfNats [0, 0, 0, 0] x)) ∧
        (∀ x, x < 2 * 2 → F32.IsZero (bufOfNats [5, 6, 7, 8] x))))) ∧
    (launch (bufOfNats [0, 0, 0, 0]) (bufOfNats [5, 6, 7, 8]) 2 (ndrange 2 2)
        ⟨fun _ => F32.nan, []⟩).C (1 * 2 + 1) = 0 :=
  ⟨⟨by decide, List.Perm.refl _, Or.inl ⟨by decide, by decide⟩⟩,
   matrixMul_zero _ _ 2 _ _ (by decide) (List.Perm.refl _) (Or.inl ⟨by decide, by decide⟩) 1 1
     (by decide) (by decide)⟩

set_option maxRecDepth 100000 in
/-- C9 as stated fails in two ways.  With `N = 1`, `A = [0]` and `B = [inf]`,
`C[0]` is `0 * inf`, a NaN, and not zero.  With `N = 65537`, `A` and `B` all
zero and `C` all one before the launch, `C[65536 * 65537 + 0]` is not written
and stays one. -/
theorem matrixMul_zero_counterexample :
    ((∀ x, x < 1 * 1 → (fun _ => (0 : F32)) x = 0) ∧
      (launch (fun _ => (0 : F32)) (fun _ => F32.inf false) 1 (ndrange 1 1)
        ⟨fun _ => 0, []⟩).C (0 * 1 + 0) = F32.nan) ∧
    ((launch (fun _ => (0 : F32)) (fun _ => (0 : F32)) 65537 (ndrange 65537 65537)
        ⟨fun _ => F32.one, []⟩).C (65536 * 65537 + 0) = F32.one ∧ F32.one ≠ 0) :=
  ⟨⟨fun _ _ => rfl, by decide⟩, launch_C_high _ _ _ _ _ (by decide), by decide⟩

/-! ## The host program -/

theorem mem_printRun {hostC : Nat → F32} {len : Nat} {e : Event} :
    ∀ steps : List (Option Nat), e ∈ (printRun hostC len steps).1 →
      (∃ x, e = Event.outFloat x) ∨ e = Event.out " " ∨ e = Event.outEndl ∨
        ∃ idx, e = Event.readPastEnd idx := by
  intro steps
  induction steps with
  | nil => intro h; simp [printRun] at h
  | cons a r ih =>
    intro h
    cases a with
    | none =>
      simp only [printRun, List.mem_cons] at h
      rcases h with h | h
      · exact Or.inr (Or.inr (Or.inl h))
      · exact ih h
    | some idx =>
      simp only [printRun] at h
      split at h
      · simp only [List.mem_cons] at h
        rcases h with h | h | h
        · exact Or.inl ⟨_, h⟩
        · exact Or.inr (Or.inl h)
        · exact ih h
      · simp only [List.mem_singleton] at h
        exact Or.inr (Or.inr (Or.inr ⟨_, h⟩))

theorem printRun_ok (hostC : Nat → F32) (len : Nat) :
    ∀ steps : List (Option Nat), (∀ idx, some idx ∈ steps → idx < len) →
      (printRun hostC len steps).2 = true := by
  intro steps
  induction steps with
  | nil => intro _; rfl
  | cons a r ih =>
    intro h
    have hr := ih (fun idx hi => h idx (List.mem_cons_of_mem _ hi))
    cases a with
    | none => simpa [printRun] using hr
    | some idx =>
      have hlt : idx < len := h idx (List.mem_cons_self _ _)
      simpa [printRun, hlt] using hr

/-- The print loops stay inside the host vector `C` when `N * N` does not wrap. -/
theorem printMatrix_ok (hostC : Nat → F32) {N : Nat} (hN : N * N < 4294967296) :
    (printMatrix hostC N).2 = true := by
  apply printRun_ok
  intro idx hidx
  simp only [printSteps, List.mem_flatMap, List.mem_append, List.mem_map, List.mem_range,
    List.mem_singleton, Option.some.injEq, reduceCtorEq, or_false] at hidx
  obtain ⟨i, hi, j, hj, rfl⟩ := hidx
  have h := cell_lt hi hj
  omega

theorem sizeArg_printMatrix (hostC : Nat → F32) (N : Nat) :
    List.filterMap sizeArg (printMatrix hostC N).1 = [] := by
  rw [List.filterMap_eq_nil_iff]
  intro e he
  rcases mem_printRun _ he with ⟨x, h⟩ | h | h | ⟨x, h⟩ <;> subst h <;> rfl

theorem count_release_printMatrix (hostC : Nat → F32) (N : Nat) (h : Handle) :
    (printMatrix hostC N).1.count (Event.release h) = 0 := by
  rw [List.count_eq_zero]
  intro he
  rcases mem_printRun _ he with ⟨x, h⟩ | h | h | ⟨x, h⟩ <;> cases h

theorem buildProgram_not_mem_printMatrix (hostC : Nat → F32) (N : Nat) (status : Int) :
    Event.buildProgram status ∉ (printMatrix hostC N).1 := by
  intro he
  rcases mem_printRun _ he with ⟨x, h⟩ | h | h | ⟨x, h⟩ <;> cases h

theorem tryBlock_cases (env : Env) (N : Nat) :
    (createContext env = false ∧ tryBlock env N =
      ([Event.getPlatformIDs env.platformStatus, Event.getDeviceIDs env.deviceStatus,
        Event.create Handle.context false],
        Outcome.thrown "Failed to create a compute context")) ∨
    (createContext env = true ∧ env.queue = false ∧ tryBlock env N =
      ([Event.getPlatformIDs env.platformStatus, Event.getDeviceIDs env.deviceStatus,
        Event.create Handle.context true, Event.create Handle.queue false],
        Outcome.thrown "Failed to create a command queue")) ∨
    (createContext env = true ∧ env.queue = true ∧ env.buildStatus ≠ CL_SUCCESS ∧
      tryBlock env N =
      ([Event.getPlatformIDs env.platformStatus, Event.getDeviceIDs env.deviceStatus,
        Event.create Handle.context true, Event.create Handle.queue true,
        Event.create Handle.program env.program, Event.buildProgram env.buildStatus],
        Outcome.thrown "Failed to build program")) ∨
    (createContext env = true ∧ env.queue = true ∧ env.buildStatus = CL_SUCCESS ∧
      (tryBlock env N).2 ≠ Outcome.thrown "Failed to build program" ∧
      ∀ status, Event.buildProgram status ∈ (tryBlock env N).1 → status = CL_SUCCESS) := by
  rcases hc : createContext env with _ | _
  · left
    simp [tryBlock, hc]
  · right
    rcases hq : env.queue with _ | _
    · left
      simp [tryBlock, hc, hq]
    · right
      by_cases hb : env.buildStatus = CL_SUCCESS
      · right
        refine ⟨rfl, rfl, hb, ?_, ?_⟩
        · rcases hk : env.kernel with _ | _
          · simp [tryBlock, hc, hq, hb, hk]
          · rcases hp : (printMatrix env.hostC N).2 with _ | _ <;>
              simp [tryBlock, hc, hq, hb, hk, hp]
        · intro status
          rcases hk : env.kernel with _ | _
          · simp [tryBlock, hc, hq, hb, hk]
          · rcases hp : (printMatrix env.hostC N).2 with _ | _ <;>
              simp [tryBlock, hc, hq, hb, hk, hp, buildProgram_not_mem_printMatrix]
      · left
        refine ⟨rfl, rfl, hb, ?_⟩
        simp [tryBlock, hc, hq, hb]

/-- C5: if the call of `clBuildProgram` returns anything other than
`CL_SUCCESS`, the run of `main` writes the line "Error: Failed to build
program" to the error stream, exits with status 1, and performs none of the
later steps: no kernel creation, no buffer allocation, no upload, no launch,
no download and no result matrix on standard output. -/
theorem main_build_failure (env : Env) (N : Nat) (status : Int)
    (hcall : Event.buildProgram status ∈ (main env N).trace) (hfail : status ≠ CL_SUCCESS) :
    (main env N).exit = 1 ∧
      stderrText (main env N).trace = "Error: Failed to build program\n" ∧
      ∀ e, e ∈ (main env N).trace → isAfterBuild e = false := by
  rcases tryBlock_cases env N with ⟨_, h⟩ | ⟨_, _, h⟩ | ⟨_, _, _, h⟩ | ⟨_, _, _, _, h⟩
  · simp [main, h] at hcall
  · simp [main, h] at hcall
  · refine ⟨by simp [main, h], ?_, ?_⟩
    · simp only [main, h, stderrText, List.filterMap_append, List.filterMap_cons,
        List.filterMap_nil, errText, List.nil_append, List.append_nil]
      decide
    · simp [main, h, isAfterBuild, isResultOutput]
  · exfalso
    apply hfail
    apply h status
    unfold main at hcall
    split at hcall
    · next t w heq =>
      rw [heq]
      simpa using hcall
    · next t heq =>
      rw [heq]
      simpa using hcall
    · next t heq =>
      rw [heq]
      simpa using hcall

/-- The run of `main` on a runtime whose `clBuildProgram` returns
`CL_BUILD_PROGRAM_FAILURE`. -/
theorem main_build_failure_witness :
    (Event.buildProgram (-11) ∈ (main envBuildFails 2).trace ∧ (-11 : Int) ≠ CL_SUCCESS) ∧
    ((main envBuildFails 2).exit = 1 ∧
      stderrText (main envBuildFails 2).trace = "Error: Failed to build program\n" ∧
      ∀ e, e ∈ (main envBuildFails 2).trace → isAfterBuild e = false) :=
  ⟨⟨by decide, by decide⟩, main_build_failure envBuildFails 2 (-11) (by decide) (by decide)⟩

theorem bytes_eq (N : Nat) : bytes N = (N * N % 4294967296) * 4 := by
  unfold bytes
  omega

/-- C7: for every `N`, the size `bytes` is `N * N * 4` with `N * N` reduced
modulo `2^32` before the multiplication by `sizeof(float)`; every buffer
allocation and every transfer of a run of `main` has this size argument; and a
run that does not abort makes exactly six such calls (three allocations, two
uploads, one download). -/
theorem main_buffer_bytes (env : Env) (N : Nat) :
    bytes N = (N * N % 4294967296) * 4 ∧
    (∀ b, b ∈ bufferSizes (main env N).trace → b = (N * N % 4294967296) * 4) ∧
    ((main env N).exit = 0 →
      bufferSizes (main env N).trace = List.replicate 6 ((N * N % 4294967296) * 4)) := by
  have hb := bytes_eq N
  have key : bufferSizes (main env N).trace = [] ∧ (main env N).exit = 1 ∨
      bufferSizes (main env N).trace = List.replicate 6 (bytes N) := by
    rcases hc : createContext env with _ | _
    · left; simp [main, tryBlock, hc, bufferSizes, sizeArg]
    rcases hq : env.queue with _ | _
    · left; simp [main, tryBlock, hc, hq, bufferSizes, sizeArg]
    by_cases hs : env.buildStatus = CL_SUCCESS
    · rcases hk : env.kernel with _ | _
      · left; simp [main, tryBlock, hc, hq, hs, hk, bufferSizes, sizeArg]
      · right
        rcases hp : (printMatrix env.hostC N).2 with _ | _ <;>
          simp [main, tryBlock, hc, hq, hs, hk, hp, bufferSizes, List.filterMap_append,
            sizeArg_printMatrix, sizeArg, List.replicate]
    · left; simp [main, tryBlock, hc, hq, hs, bufferSizes, sizeArg]
  rcases key with ⟨h1, h2⟩ | h1
  · refine ⟨hb, ?_, ?_⟩
    · intro b hbm
      rw [h1] at hbm
      cases hbm
    · intro h0
      rw [h2] at h0
      cases h0
  · refine ⟨hb, ?_, ?_⟩
    · intro b hbm
      rw [h1] at hbm
      rw [← hb]
      exact List.eq_of_mem_replicate hbm
    · intro _
      rw [h1, hb]

/-- Whenever the setup succeeds, the run makes the six sized calls, also when
it later ends in the print loop. -/
theorem bufferSizes_of_setup (env : Env) (N : Nat) (hc : createContext env = true)
    (hq : env.queue = true) (hs : env.buildStatus = CL_SUCCESS) (hk : env.kernel = true) :
    bufferSizes (main env N).trace = List.replicate 6 (bytes N) := by
  rcases hp : (printMatrix env.hostC N).2 with _ | _ <;>
    simp [main, tryBlock, hc, hq, hs, hk, hp, bufferSizes, List.filterMap_append,
      sizeArg_printMatrix, sizeArg, List.replicate]

/-- The size at `N = 65537`, where `N * N` wraps to `131073`, and the six size
arguments of a run with `N = 3`. -/
theorem main_buffer_bytes_witness :
    bytes 65537 = 524292 ∧ (main envOk 3).exit = 0 ∧
      bufferSizes (main envOk 3).trace = [36, 36, 36, 36, 36, 36] :=
  ⟨(main_buffer_bytes envOk 65537).1.trans (by decide), by decide,
   ((main_buffer_bytes envOk 3).2.2 (by decide)).trans (by decide)⟩

/-- C4 at a failing input: `clCreateBuffer` returns null for `bufA`.  `main`
does not test the buffers: the run goes on to the uploads, the launch and the
download, prints the result matrix, writes nothing to the error stream and
exits with status 0. -/
theorem main_buffer_failure_ignored :
    Event.createBuffer Handle.bufA (bytes 1) false ∈ (main envNoBufA 1).trace ∧
    (main envNoBufA 1).exit = 0 ∧
    stderrText (main envNoBufA 1).trace = "" ∧
    Event.writeBuffer Handle.bufA (bytes 1) ∈ (main envNoBufA 1).trace ∧
    Event.enqueueNDRangeKernel 1 1 ∈ (main envNoBufA 1).trace ∧
    (main envNoBufA 1).trace.any isResultOutput = true := by
  decide

/-- C6 at a failing input: `clBuildProgram` fails.  The context, the queue and
the program were created, the run exits with status 1, and none of the three
is released. -/
theorem main_leaks_on_build_failure :
    (main envBuildFails 1).exit = 1 ∧
    ∀ h, h ∈ [Handle.context, Handle.queue, Handle.program] →
      (main envBuildFails 1).trace.any (isCreated h) = true ∧
      (main envBuildFails 1).trace.count (Event.release h) = 0 := by
  decide

/-- On a run of `main` that returns 0, each of the seven handles is released
exactly once. -/
theorem main_success_releases (env : Env) (N : Nat) (h0 : (main env N).exit = 0) (h : Handle) :
    (main env N).trace.count (Event.release h) = 1 := by
  rcases hc : createContext env with _ | _
  · simp [main, tryBlock, hc] at h0
  rcases hq : env.queue with _ | _
  · simp [main, tryBlock, hc, hq] at h0
  by_cases hs : env.buildStatus = CL_SUCCESS
  · rcases hk : env.kernel with _ | _
    · simp [main, tryBlock, hc, hq, hs, hk] at h0
    · rcases hp : (printMatrix env.hostC N).2 with _ | _
      · simp [main, tryBlock, hc, hq, hs, hk, hp] at h0
      · simp only [main, tryBlock, hc, hq, hs, hk, hp]
        simp only [ne_eq, not_true_eq_false, if_false, Bool.true_eq_false, List.count_append,
          count_release_printMatrix]
        cases h <;> simp [List.count_cons]
  · simp [main, tryBlock, hc, hq, hs] at h0

/-- When the setup succeeds and `N * N` does not wrap, `main` returns 0. -/
theorem main_exit_zero (env : Env) {N : Nat} (hN : N * N < 4294967296)
    (hc : createContext env = true) (hq : env.queue = true)
    (hs : env.buildStatus = CL_SUCCESS) (hk : env.kernel = true) :
    (main env N).exit = 0 := by
  simp [main, tryBlock, hc, hq, hs, hk, printMatrix_ok env.hostC hN]

/-- From `N = 65536` on, where `N * N` wraps, the print loop of a run whose
setup succeeds reads past the end of the host vector `C`: here `N = 65536`,
for which `C` is empty and the first read is the one past the end. -/
theorem main_reads_past_end :
    (printMatrix envOk.hostC 65536).1 = [Event.readPastEnd 0] ∧
      (printMatrix envOk.hostC 65536).2 = false := by
  have h : printSteps 65536 = some 0 :: (printSteps 65536).tail := by
    have e : (65536 : Nat) = 65535 + 1 := rfl
    simp only [printSteps]
    rw [e, List.range_succ_eq_map]
    simp
  simp only [printMatrix]
  rw [h]
  simp [printRun]

end OpenCLBasic
